import Mathlib

/-!
Verification development for the stm32-ntru-tinysign host client
(src/src/main.rs). The program is embedded shallowly: buffers, strings and
files are lists of byte values (Nat, each < 256); fallible Rust code is
modelled with an explicit result type that distinguishes a returned error
from a panic (abort). All definitions are translated from the source; the
few places that model behaviour of an external library (UTF-8 lossy
conversion, chrono's timestamp range) follow that library's documented
behaviour and are marked as such.
-/

set_option maxRecDepth 10000

namespace TinySign

/-- Result of running a piece of fallible Rust code: `panicked` models an
abort (index out of bounds, `unwrap` of `None`/`Err`), `error` models a
returned `Err`, `ok` a normal return. -/
inductive RResult (α : Type) where
  | panicked : RResult α
  | error : RResult α
  | ok : α → RResult α
deriving DecidableEq, Repr

/-- `const NONCE_LEN: usize = (40 + 2) * 2;` (main.rs line 17). -/
def NONCE_LEN : Nat := (40 + 2) * 2

/-! ## Serial exchange framing (`send_and_read_resp`, main.rs lines 67-106) -/

/-- Terminator test used throughout `send_and_read_resp`:
`c == b'\n' || c == b'\r'`. -/
def isTermByte (b : Nat) : Bool := b == 10 || b == 13

/-- Number of LF bytes in a received chunk:
`buf.iter().filter(|&&c| c == b'\n').count()` (line 81; the bytes of `buf`
beyond `n_read` are freshly zeroed, so counting the whole buffer equals
counting the bytes just read). -/
def countLF (c : List Nat) : Nat := (c.filter (fun b => b == 10)).length

/-- The read-accumulate loop of `send_and_read_resp` (lines 76-104), with
time abstracted: `chunks` is the sequence of non-empty reads the device
delivers before the deadline. Each chunk is appended to `res` and the
remaining line count `n` is decreased by the newlines it contains; once
`n <= 0` the loop leaves with the accumulated buffer (the code then enters
the trimming phase), and if the chunks are exhausted while `n > 0` the
deadline elapses and the call fails with a timeout (`none`). -/
def readPhase : List (List Nat) → Int → List Nat → Option (List Nat × Int)
  | chunks, n, res =>
    if n ≤ 0 then some (res, n)
    else
      match chunks with
      | [] => none
      | c :: rest => readPhase rest (n - (countLF c : Int)) (res ++ c)

/-- The inner `while` of the trimming phase (lines 91-93): pop bytes from
the end of `res` while the last byte is CR or LF. -/
def popTerminatorRun (res : List Nat) : List Nat :=
  (res.reverse.dropWhile isTermByte).reverse

/-- The trimming phase of `send_and_read_resp` (lines 87-99), the
`while n <= 0` loop, indexed by a step budget `fuel`: if the last byte
(`*res.last().unwrap_or(&b'\0')`) is a terminator, the whole trailing
terminator run is popped and `n` is incremented; otherwise one byte is
popped (`Vec::pop` on an empty buffer does nothing). `none` means the
budget was exhausted without the loop returning. -/
def trimFrame : Nat → List Nat → Int → Option (List Nat)
  | 0, _, _ => none
  | fuel + 1, res, n =>
    if n ≤ 0 then
      if isTermByte (res.getLast?.getD 0) then
        trimFrame fuel (popTerminatorRun res) (n + 1)
      else
        trimFrame fuel res.dropLast n
    else some res

/-! ## Hex transcoding (`decode_hex`, main.rs lines 147-152, and the
`format!("{:02x}", b)` encoding of main.rs lines 224-227) -/

/-- Value of an ASCII hex digit, as accepted by
`u8::from_str_radix(_, 16)` (`char::to_digit(16)`): `0-9`, `a-f`, `A-F`. -/
def hexDigitVal (b : Nat) : Option Nat :=
  if 48 ≤ b ∧ b ≤ 57 then some (b - 48)
  else if 97 ≤ b ∧ b ≤ 102 then some (b - 87)
  else if 65 ≤ b ∧ b ≤ 70 then some (b - 55)
  else none

/-- The digit-accumulation loop of `from_str_radix` for `u8`, radix 16:
`checked_mul`/`checked_add` fail once the accumulator would exceed 255. -/
def parseHexDigitsU8 : List Nat → Nat → Option Nat
  | [], acc => some acc
  | b :: rest, acc =>
    match hexDigitVal b with
    | none => none
    | some d => if acc * 16 + d ≤ 255 then parseHexDigitsU8 rest (acc * 16 + d) else none

/-- `u8::from_str_radix(s, 16)` on the bytes of `s`: empty input and a bare
sign are errors; a leading `+` is accepted and skipped (a `-` is not a
digit for an unsigned type and so fails); otherwise all bytes must be hex
digits. -/
def u8FromRadix16 (s : List Nat) : Option Nat :=
  match s with
  | [] => none
  | b :: rest =>
    if b == 43 then
      if rest.isEmpty then none else parseHexDigitsU8 rest 0
    else parseHexDigitsU8 (b :: rest) 0

/-- Rust `str::is_char_boundary` at offset 2 of the current suffix: true at
the end of the string, otherwise the byte there must not be a UTF-8
continuation byte (`b < 0x80 || b >= 0xC0`). Slicing `&s[i..i+2]` panics
when this fails. -/
def nextCharBoundary (t : List Nat) : Bool :=
  match t with
  | [] => true
  | r :: _ => decide (r < 128) || decide (192 ≤ r)

/-- `decode_hex` (main.rs lines 147-152):
`(0..s.len()).step_by(2).map(|i| u8::from_str_radix(&s[i..i+2], 16)).collect()`,
over the UTF-8 bytes of `s`. Stepping two bytes at a time: an exhausted
odd tail makes the slice `&s[i..i+2]` run out of bounds (panic), a slice
end that falls inside a multi-byte character is a char-boundary panic, and
`collect` stops at the first `Err` without evaluating later slices. The
start boundary of each slice was already checked as the end boundary of
the previous one (offset 0 is always a boundary). -/
def decode_hex : List Nat → RResult (List Nat)
  | [] => .ok []
  | [_] => .panicked
  | c1 :: c2 :: rest =>
    if nextCharBoundary rest then
      match u8FromRadix16 [c1, c2] with
      | none => .error
      | some v =>
        match decode_hex rest with
        | .ok tail => .ok (v :: tail)
        | .error => .error
        | .panicked => .panicked
    else .panicked

/-- Lowercase hex digit of a value below 16, as produced by
`format!("{:02x}", b)`. -/
def hexCharOf (d : Nat) : Nat := if d < 10 then 48 + d else 87 + d

/-- The hex encoding built for the `AT+S` command (main.rs lines 224-227):
`data.iter().map(|b| format!("{:02x}", b)).collect::<String>()` — two
lowercase hex characters per byte. -/
def encode_hex : List Nat → List Nat
  | [] => []
  | b :: rest => hexCharOf (b / 16) :: hexCharOf (b % 16) :: encode_hex rest

/-! ## UTF-8 (external std behaviour: `String::from_utf8_lossy` and
decoding to scalar values) -/

/-- UTF-8 continuation byte test (`0x80..=0xBF`). -/
def contByte (b : Nat) : Bool := decide (128 ≤ b) && decide (b ≤ 191)

/-- Allowed first continuation byte of a 3-byte sequence
(E0: A0..BF, ED: 80..9F, otherwise 80..BF). -/
def validCont3 (b c1 : Nat) : Bool :=
  if b == 224 then decide (160 ≤ c1) && decide (c1 ≤ 191)
  else if b == 237 then decide (128 ≤ c1) && decide (c1 ≤ 159)
  else contByte c1

/-- Allowed first continuation byte of a 4-byte sequence
(F0: 90..BF, F4: 80..8F, otherwise 80..BF). -/
def validCont4 (b c1 : Nat) : Bool :=
  if b == 240 then decide (144 ≤ c1) && decide (c1 ≤ 191)
  else if b == 244 then decide (128 ≤ c1) && decide (c1 ≤ 143)
  else contByte c1

/-- `String::from_utf8_lossy`, modelled from its documented behaviour
(substitution of maximal subparts): each invalid sequence — an invalid
start byte, or a well-started sequence cut short by an out-of-place byte
or the end of input — is replaced by one U+FFFD (bytes EF BF BD), and
scanning resumes at the offending byte. Valid sequences are copied
unchanged. The result is the byte sequence of the returned string. -/
def utf8Lossy : List Nat → List Nat
  | [] => []
  | b :: rest =>
    if b < 128 then b :: utf8Lossy rest
    else if b < 194 then 239 :: 191 :: 189 :: utf8Lossy rest
    else if b ≤ 223 then
      match rest with
      | [] => [239, 191, 189]
      | c1 :: rest1 =>
        if contByte c1 then b :: c1 :: utf8Lossy rest1
        else 239 :: 191 :: 189 :: utf8Lossy (c1 :: rest1)
    else if b ≤ 239 then
      match rest with
      | [] => [239, 191, 189]
      | c1 :: rest1 =>
        if validCont3 b c1 then
          match rest1 with
          | [] => [239, 191, 189]
          | c2 :: rest2 =>
            if contByte c2 then b :: c1 :: c2 :: utf8Lossy rest2
            else 239 :: 191 :: 189 :: utf8Lossy (c2 :: rest2)
        else 239 :: 191 :: 189 :: utf8Lossy (c1 :: rest1)
    else if b ≤ 244 then
      match rest with
      | [] => [239, 191, 189]
      | c1 :: rest1 =>
        if validCont4 b c1 then
          match rest1 with
          | [] => [239, 191, 189]
          | c2 :: rest2 =>
            if contByte c2 then
              match rest2 with
              | [] => [239, 191, 189]
              | c3 :: rest3 =>
                if contByte c3 then b :: c1 :: c2 :: c3 :: utf8Lossy rest3
                else 239 :: 191 :: 189 :: utf8Lossy (c3 :: rest3)
            else 239 :: 191 :: 189 :: utf8Lossy (c2 :: rest2)
        else 239 :: 191 :: 189 :: utf8Lossy (c1 :: rest1)
    else 239 :: 191 :: 189 :: utf8Lossy rest

/-- Decoding of a (valid) UTF-8 byte sequence to its scalar values; it is
applied only to outputs of `utf8Lossy`, which are valid, but is kept total
by emitting U+FFFD and advancing one byte on anything invalid. The char
methods of `str` (`lines`, `split_whitespace`, `parse`) operate on these
scalars. -/
def utf8Scalars : List Nat → List Nat
  | [] => []
  | b :: rest =>
    if b < 128 then b :: utf8Scalars rest
    else if b < 194 then 65533 :: utf8Scalars rest
    else if b ≤ 223 then
      match rest with
      | [] => [65533]
      | c1 :: rest1 =>
        if contByte c1 then ((b - 192) * 64 + (c1 - 128)) :: utf8Scalars rest1
        else 65533 :: utf8Scalars (c1 :: rest1)
    else if b ≤ 239 then
      match rest with
      | [] => [65533]
      | c1 :: rest1 =>
        if validCont3 b c1 then
          match rest1 with
          | [] => [65533]
          | c2 :: rest2 =>
            if contByte c2 then
              ((b - 224) * 4096 + (c1 - 128) * 64 + (c2 - 128)) :: utf8Scalars rest2
            else 65533 :: utf8Scalars (c2 :: rest2)
        else 65533 :: utf8Scalars (c1 :: rest1)
    else if b ≤ 244 then
      match rest with
      | [] => [65533]
      | c1 :: rest1 =>
        if validCont4 b c1 then
          match rest1 with
          | [] => [65533]
          | c2 :: rest2 =>
            if contByte c2 then
              match rest2 with
              | [] => [65533]
              | c3 :: rest3 =>
                if contByte c3 then
                  ((b - 240) * 262144 + (c1 - 128) * 4096 + (c2 - 128) * 64 + (c3 - 128)) ::
                    utf8Scalars rest3
                else 65533 :: utf8Scalars (c3 :: rest3)
            else 65533 :: utf8Scalars (c2 :: rest2)
        else 65533 :: utf8Scalars (c1 :: rest1)
    else 65533 :: utf8Scalars rest

/-! ## Capacity extraction from the `AT+I` reply (main.rs lines 203-219) -/

/-- `str::split_inclusive('\n')` over scalar values: chunks keep their
terminating LF; an empty string yields no chunks. -/
def splitInclLF : List Nat → List (List Nat)
  | [] => []
  | b :: rest =>
    if b == 10 then [b] :: splitInclLF rest
    else
      match splitInclLF rest with
      | [] => [[b]]
      | t :: ts => (b :: t) :: ts

/-- The per-line map of `str::lines`: strip one trailing LF, and then one
trailing CR only if an LF was stripped. -/
def linesMap (l : List Nat) : List Nat :=
  if l.getLast? == some 10 then
    if l.dropLast.getLast? == some 13 then l.dropLast.dropLast else l.dropLast
  else l

/-- `str::lines` over scalar values. -/
def linesOf (s : List Nat) : List (List Nat) := (splitInclLF s).map linesMap

/-- `char::is_whitespace`: the Unicode White_Space scalar values. -/
def isWSChar (c : Nat) : Bool :=
  c == 9 || c == 10 || c == 11 || c == 12 || c == 13 || c == 32 ||
  c == 133 || c == 160 || c == 5760 ||
  (decide (8192 ≤ c) && decide (c ≤ 8202)) ||
  c == 8232 || c == 8233 || c == 8239 || c == 8287 || c == 12288

/-- Accumulator loop for `str::split_whitespace`: `acc` holds the current
token reversed; whitespace ends the token, empty tokens are discarded. -/
def splitWSAux : List Nat → List Nat → List (List Nat)
  | [], acc => if acc.isEmpty then [] else [acc.reverse]
  | c :: rest, acc =>
    if isWSChar c then
      if acc.isEmpty then splitWSAux rest [] else acc.reverse :: splitWSAux rest []
    else splitWSAux rest (c :: acc)

/-- `str::split_whitespace` over scalar values. -/
def splitWhitespaceOf (s : List Nat) : List (List Nat) := splitWSAux s []

/-- Decimal digit value for `usize` parsing. -/
def decDigitVal (b : Nat) : Option Nat :=
  if 48 ≤ b ∧ b ≤ 57 then some (b - 48) else none

/-- Digit-accumulation loop of `usize::from_str` (radix 10). -/
def parseDecDigits : List Nat → Nat → Option Nat
  | [], acc => some acc
  | b :: rest, acc =>
    match decDigitVal b with
    | none => none
    | some d => parseDecDigits rest (acc * 10 + d)

/-- `str::parse::<usize>()` on a 64-bit host: optional leading `+`, then a
non-empty run of decimal digits; overflow past `2^64 - 1` is an error
(`checked_mul`/`checked_add` fail at the first digit that overflows, which
for digit-only input is equivalent to the bound on the final value). -/
def parseUsize (s : List Nat) : Option Nat :=
  match s with
  | [] => none
  | b :: rest =>
    if b == 43 then
      if rest.isEmpty then none
      else
        match parseDecDigits rest 0 with
        | none => none
        | some v => if v < 18446744073709551616 then some v else none
    else
      match parseDecDigits (b :: rest) 0 with
      | none => none
      | some v => if v < 18446744073709551616 then some v else none

/-- Capacity extraction (main.rs lines 203-214):
`String::from_utf8_lossy(&buffer).lines().last().unwrap()
.split_whitespace().last().unwrap().parse::<usize>().unwrap()`.
Each `unwrap` that hits `None`/`Err` is a panic, modelled as `none`. -/
def extractCapacity (buffer : List Nat) : Option Nat :=
  match (linesOf (utf8Scalars (utf8Lossy buffer))).getLast? with
  | none => none
  | some lastLine =>
    match (splitWhitespaceOf lastLine).getLast? with
    | none => none
    | some tok => parseUsize tok

/-- Last whitespace-delimited token of the last line of the (lossily
decoded) reply, for stating claims about `extractCapacity`. -/
def lastTokenOfLastLine (buffer : List Nat) : Option (List Nat) :=
  (splitWhitespaceOf (((linesOf (utf8Scalars (utf8Lossy buffer))).getLast?).getD [])).getLast?

/-- What `main` does right after a successful `AT+I` exchange
(main.rs lines 203-219): extracting the capacity may panic; a capacity
below `Sha3_512::output_size() + 8 + 2` exits with the
capacity-insufficient error; otherwise execution proceeds to the sign or
verify exchange. -/
inductive CapPhase where
  | panicked : CapPhase
  | insufficient : CapPhase
  | proceeded : CapPhase
deriving DecidableEq, Repr

/-- The capacity gate of `main` (lines 203-219): panic, exit with
"Device message capacity insufficient", or go on to the `AT+S`/`AT+V`
exchange (`Sha3_512::output_size()` is 64). -/
def phaseAfterInfo (infoReply : List Nat) : CapPhase :=
  match extractCapacity infoReply with
  | none => CapPhase.panicked
  | some m => if m < 64 + 8 + 2 then CapPhase.insufficient else CapPhase.proceeded

/-- Commands written to the device after the `AT+I` reply: the sign or
verify payload (`AT+S <hex>` / `AT+V <bytes>`) is written only when the
capacity gate lets execution proceed (main.rs lines 216-253). -/
def payloadCmdsSent (infoReply : List Nat) (payload : List Nat) : List (List Nat) :=
  match phaseAfterInfo infoReply with
  | CapPhase.proceeded => [payload]
  | _ => []

/-! ## Sidecar reading and validation (`get_files`, main.rs lines 131-144) -/

/-- The trailing-terminator strip of `get_files` run on the reversed file
bytes, mirroring
`while *data.last().unwrap() == b'\n' || *data.last().unwrap() == b'\r' { data.pop(); }`:
`data.last()` of an empty buffer is `None`, so the `unwrap` panics. -/
def stripLoop : List Nat → RResult (List Nat)
  | [] => RResult.panicked
  | b :: rest => if isTermByte b then stripLoop rest else RResult.ok (b :: rest)

/-- Strip trailing CR/LF from the sidecar bytes (main.rs lines 134-136);
popping at the end of a vector is popping at the head of its reversal. -/
def stripTrailingTerm (fileBytes : List Nat) : RResult (List Nat) :=
  match stripLoop fileBytes.reverse with
  | RResult.panicked => RResult.panicked
  | RResult.error => RResult.error
  | RResult.ok revStripped => RResult.ok revStripped.reverse

/-- The `.sig` branch of `get_files` (main.rs lines 131-144): read the
sidecar, strip trailing CR/LF, then reject (`InvalidData`, the
malformed-envelope failure) if the stripped length is odd or below
`NONCE_LEN + Sha3_512::output_size() * 2 + 4 = 216`. -/
def sigRead (fileBytes : List Nat) : RResult (List Nat) :=
  match stripTrailingTerm fileBytes with
  | RResult.panicked => RResult.panicked
  | RResult.error => RResult.error
  | RResult.ok data =>
    if data.length % 2 ≠ 0 ∨ data.length < NONCE_LEN + 64 * 2 + 4 then RResult.error
    else RResult.ok data

/-! ## Verify flow after a non-ERROR `AT+V` reply (main.rs lines 261-306) -/

/-- `&data[a..b]` on a byte vector: panics unless `a ≤ b ≤ len`. -/
def vecSlice (data : List Nat) (a b : Nat) : Option (List Nat) :=
  if a ≤ b ∧ b ≤ data.length then some ((data.drop a).take (b - a)) else none

/-- `u64::from_le_bytes` composed with the `try_into().unwrap_or([0; 8])`
of main.rs line 264: an 8-byte list is read little-endian, anything else
falls back to the zero array. -/
def leU64OrZero (bs : List Nat) : Nat :=
  if bs.length == 8 then bs.foldr (fun b acc => b + 256 * acc) 0 else 0

/-- The `as i64` cast of main.rs line 266: two's-complement wrap of a
`u64` value into a signed 64-bit integer. -/
def asI64 (v : Nat) : Int :=
  if v < 9223372036854775808 then (v : Int) else (v : Int) - 18446744073709551616

/-- `chrono::DateTime::from_timestamp(secs, 0).is_some()`, modelled from
chrono's documented representable range (years -262144 to 262143):
seconds from `-8334632851200` to `8210298412799`. -/
def fromTimestampSome (t : Int) : Bool :=
  decide (-8334632851200 ≤ t) && decide (t ≤ 8210298412799)

/-- Hex-decode of the timestamp field of a validated sidecar:
`decode_hex(&String::from_utf8_lossy(&data[NONCE_LEN..NONCE_LEN + 16]))`
(main.rs line 262). -/
def tsDecoded (data : List Nat) : RResult (List Nat) :=
  decode_hex (utf8Lossy ((data.drop NONCE_LEN).take 16))

/-- Outcome of the verify flow from line 261 on: a panic, one of the
reported failures, or success. -/
inductive VerifyOutcome where
  | panicked : VerifyOutcome
  | malformedTimestamp : VerifyOutcome
  | invalidTimestamp : VerifyOutcome
  | baseFileMissing : VerifyOutcome
  | hashMismatch : VerifyOutcome
  | success : VerifyOutcome
deriving DecidableEq, Repr

/-- The verify flow once the timestamp bytes are in hand (main.rs lines
261-306): the `u64` value is cast `as i64` and compared with zero
(line 267, "Malformed timestamp"); then the digest field
`&data[NONCE_LEN + 18 .. NONCE_LEN + 18 + 128]` is sliced and hex-decoded
with a bare `unwrap` (line 271-273); then `DateTime::from_timestamp` is
checked (line 274, "Invalid timestamp"); then the base file is opened and
its recomputed SHA3-512 digest (`baseHash`, `none` when the file cannot be
opened) is compared with the embedded digest. -/
def verifyWithTs (data : List Nat) (baseHash : Option (List Nat)) (tsBytes : List Nat) :
    VerifyOutcome :=
  if asI64 (leU64OrZero tsBytes) = 0 then VerifyOutcome.malformedTimestamp
  else
    match vecSlice data (NONCE_LEN + 18) (NONCE_LEN + 18 + 128) with
    | none => VerifyOutcome.panicked
    | some digestHexBytes =>
      match decode_hex (utf8Lossy digestHexBytes) with
      | RResult.ok hash =>
        if fromTimestampSome (asI64 (leU64OrZero tsBytes)) then
          match baseHash with
          | none => VerifyOutcome.baseFileMissing
          | some fhash => if fhash = hash then VerifyOutcome.success else VerifyOutcome.hashMismatch
        else VerifyOutcome.invalidTimestamp
      | RResult.error => VerifyOutcome.panicked
      | RResult.panicked => VerifyOutcome.panicked

/-- The verify flow after a non-ERROR `AT+V` reply (main.rs lines
261-306), starting from the timestamp slice: a decode `Err` falls back to
eight zero bytes (`unwrap_or(vec![0; 8])`, line 263), a decode panic
aborts. -/
def verifyAfterReply (data : List Nat) (baseHash : Option (List Nat)) : VerifyOutcome :=
  match vecSlice data NONCE_LEN (NONCE_LEN + 16) with
  | none => VerifyOutcome.panicked
  | some tsHexBytes =>
    match decode_hex (utf8Lossy tsHexBytes) with
    | RResult.panicked => VerifyOutcome.panicked
    | RResult.error => verifyWithTs data baseHash (List.replicate 8 0)
    | RResult.ok bs => verifyWithTs data baseHash bs

/-! ## Sign flow sidecar writing (main.rs lines 125-130 and 235-245) -/

/-- The sidecar handle obtained in `get_files` before any device exchange
(main.rs lines 126-129): `OpenOptions::new().write(true).create(true)`
creates the file empty when absent and keeps the existing content
otherwise — there is no `truncate`. `existing` is the sidecar content on
disk before the run (`none` when the file does not exist); the returned
list is its content right after the open. -/
def openSidecarForSign (existing : Option (List Nat)) : List Nat := existing.getD []

/-- The sidecar content after a successful sign (main.rs lines 239-244):
the device reply with `"\r\n"` appended is written from position 0 over
whatever the open left in the file, so bytes of an existing longer file
beyond the written range survive. -/
def writeSignature (existing : Option (List Nat)) (reply : List Nat) : List Nat :=
  (reply ++ [13, 10]) ++ (openSidecarForSign existing).drop (reply.length + 2)

/-! ## Base-file path in the verify flow (main.rs line 284) -/

/-- `file_path.replace(".sig", "")` (main.rs line 284): every occurrence
of the 4-byte pattern `.sig` is removed, scanning left to right over
non-overlapping matches. -/
def replaceDotSig (s : List Nat) : List Nat :=
  match s with
  | b1 :: b2 :: b3 :: b4 :: rest =>
    if b1 == 46 && b2 == 115 && b3 == 105 && b4 == 103 then replaceDotSig rest
    else b1 :: replaceDotSig (b2 :: b3 :: b4 :: rest)
  | b :: rest => b :: replaceDotSig rest
  | [] => []

/-- A 216-byte sidecar (after stripping): all `'0'` hex characters except
a timestamp field `"01" ++ "0" * 14` (little-endian value 1). It passes
the length validation of `get_files` yet is too short for the digest
slice `&data[NONCE_LEN + 18 .. NONCE_LEN + 18 + 128]`. -/
def shortEnvelope : List Nat :=
  List.replicate 84 48 ++ (48 :: 49 :: List.replicate 14 48) ++ List.replicate 116 48

/-! ## Theorems -/

theorem trimFrame_empty_zero : ∀ fuel : Nat, trimFrame fuel [] 0 = none := by
  intro fuel
  induction fuel with
  | zero => rfl
  | succ f ih =>
    have hstep : trimFrame (f + 1) [] 0 = trimFrame f [] 0 := rfl
    rw [hstep]
    exact ih

/-- C1: the exchange primitive's framing is not total. With expected line
count 1 and accumulated response bytes `"\n\n"`, the read loop leaves with
remaining count `-1`; the trimming loop then pops the whole trailing
terminator run (emptying the buffer) with the count still at `0`, and from
the empty buffer no step budget ever suffices — the loop spins forever
popping nothing, so the call neither returns nor times out, contradicting
the claim that it always terminates with exactly `n` lines' worth of
payload or a timeout. -/
theorem send_and_read_framing_diverges :
    readPhase [[10, 10]] 1 [] = some ([10, 10], -1) ∧
    ∀ fuel : Nat, trimFrame fuel [10, 10] (-1) = none := by
  constructor
  · decide
  · intro fuel
    cases fuel with
    | zero => rfl
    | succ f =>
      have hstep : trimFrame (f + 1) [10, 10] (-1) = trimFrame f [] 0 := rfl
      rw [hstep]
      exact trimFrame_empty_zero f

/-- C2: the verify-path length validation accepts a sidecar of stripped
length 216 (its check is `len % 2 != 0 || len < NONCE_LEN + 128 + 4`,
i.e. a 216-byte minimum, not the 230-byte minimum the claim states), and
on such a sidecar the digest extraction
`&data[NONCE_LEN + 18 .. NONCE_LEN + 18 + 128]` is out of bounds: the
program panics after the device exchange instead of rejecting the sidecar
with a malformed-envelope failure beforehand. -/
theorem sig_length_check_admits_short_envelope :
    sigRead shortEnvelope = RResult.ok shortEnvelope ∧
    shortEnvelope.length = 216 ∧
    verifyAfterReply shortEnvelope none = VerifyOutcome.panicked := by
  refine ⟨by decide, by decide, by decide⟩

/-- C3: the sign flow opens (and so creates) the sidecar before any device
exchange, and on success writes the reply plus terminator from position 0
without truncating, so a previously existing longer sidecar keeps its
stale tail: with a 20-byte old sidecar and the 2-byte reply `"OK"`, the
resulting file is `"OK\r\n"` followed by 16 stale bytes, not exactly the
reply plus terminator as the claim states. -/
theorem sign_sidecar_write_keeps_stale_bytes :
    openSidecarForSign (none : Option (List Nat)) = [] ∧
    writeSignature (some (List.replicate 20 97)) [79, 75] =
      [79, 75, 13, 10] ++ List.replicate 16 97 ∧
    writeSignature (some (List.replicate 20 97)) [79, 75] ≠ [79, 75, 13, 10] := by
  refine ⟨by decide, by decide, by decide⟩

/-- C4: `decode_hex` is not total and does not reject every non-hex
character: on the odd-length input `"abc"` it panics (the slice
`&s[2..4]` is out of bounds) instead of returning an error, and on
`"+f"` it returns `Ok([0x0f])` although `'+'` is not a hex digit
(`from_str_radix` accepts a leading sign). On well-formed input such as
`"ab"` it decodes normally. -/
theorem decode_hex_aborts_on_odd_length :
    decode_hex [97, 98, 99] = RResult.panicked ∧
    decode_hex [43, 102] = RResult.ok [15] ∧
    decode_hex [97, 98] = RResult.ok [171] := by
  refine ⟨by decide, by decide, by decide⟩

/-- C6: the verify flow derives the base path with
`file_path.replace(".sig", "")`, which removes every occurrence of
`".sig"`: for the sidecar path `"a.sig.txt.sig"` it recomputes the digest
over `"a.txt"`, not over `"a.sig.txt"` (the path with only the trailing
`".sig"` suffix removed) as the claim states. -/
theorem verify_base_path_strips_inner_sig :
    replaceDotSig [97, 46, 115, 105, 103, 46, 116, 120, 116, 46, 115, 105, 103] =
      [97, 46, 116, 120, 116] ∧
    [97, 46, 116, 120, 116] ≠ [97, 46, 115, 105, 103, 46, 116, 120, 116] := by
  refine ⟨by decide, by decide⟩

theorem stripLoop_all_term :
    ∀ l : List Nat, (∀ b ∈ l, b = 10 ∨ b = 13) → stripLoop l = RResult.panicked := by
  intro l
  induction l with
  | nil => intro _; rfl
  | cons b rest ih =>
    intro h
    have hb : isTermByte b = true := by
      rcases h b (List.mem_cons_self b rest) with h1 | h1 <;> simp [isTermByte, h1]
    have htail : ∀ x ∈ rest, x = 10 ∨ x = 13 := fun x hx => h x (List.mem_cons_of_mem b hx)
    simp only [stripLoop, hb, if_true]
    exact ih htail

/-- C9: for a sidecar consisting only of CR and LF bytes (the empty file
included), the trailing-terminator strip of `get_files` empties the buffer
and then evaluates `*data.last().unwrap()` on an empty vector: the program
panics instead of terminating normally and failing with the
malformed-envelope error as the claim states. -/
theorem strip_all_terminators_aborts (data : List Nat)
    (h : ∀ b ∈ data, b = 10 ∨ b = 13) :
    stripTrailingTerm data = RResult.panicked := by
  have hrev : ∀ b ∈ data.reverse, b = 10 ∨ b = 13 := fun b hb => h b (List.mem_reverse.mp hb)
  have hloop : stripLoop data.reverse = RResult.panicked := stripLoop_all_term data.reverse hrev
  simp [stripTrailingTerm, hloop]

theorem strip_all_terminators_aborts_witness :
    (∀ b ∈ [13, 10, 13, 10], b = 10 ∨ b = 13) ∧
    stripTrailingTerm [13, 10, 13, 10] = RResult.panicked :=
  ⟨by decide, strip_all_terminators_aborts [13, 10, 13, 10] (by decide)⟩

theorem hexCharOf_spec :
    ∀ d : Fin 16,
      hexCharOf d.val < 128 ∧ hexCharOf d.val ≠ 43 ∧
      hexDigitVal (hexCharOf d.val) = some d.val := by
  decide

theorem u8FromRadix16_pair (hi lo : Nat) (hhi : hi < 16) (hlo : lo < 16) :
    u8FromRadix16 [hexCharOf hi, hexCharOf lo] = some (hi * 16 + lo) := by
  have h1 := hexCharOf_spec ⟨hi, hhi⟩
  have h2 := hexCharOf_spec ⟨lo, hlo⟩
  have hne : (hexCharOf hi == 43) = false := by
    simp only [beq_eq_false_iff_ne, ne_eq]
    exact h1.2.1
  have hle1 : 0 * 16 + hi ≤ 255 := by omega
  have hle2 : (0 * 16 + hi) * 16 + lo ≤ 255 := by omega
  simp [u8FromRadix16, parseHexDigitsU8, hne, h1.2.2, h2.2.2, hle1, hle2]
  omega

/-- C5: decoding the hex encoding used for the `AT+S` command gives the
original bytes back — `decode_hex(encode_hex(b)) == b` for every byte
sequence `b`. -/
theorem decode_encode_roundtrip (bs : List Nat) (h : ∀ b ∈ bs, b < 256) :
    decode_hex (encode_hex bs) = RResult.ok bs := by
  induction bs with
  | nil => rfl
  | cons b rest ih =>
    have hb : b < 256 := h b (List.mem_cons_self b rest)
    have hrest : ∀ x ∈ rest, x < 256 := fun x hx => h x (List.mem_cons_of_mem b hx)
    have hhi : b / 16 < 16 := by omega
    have hlo : b % 16 < 16 := by omega
    have hbound : nextCharBoundary (encode_hex rest) = true := by
      cases rest with
      | nil => rfl
      | cons r rs =>
        have hr : r < 256 := hrest r (List.mem_cons_self r rs)
        have hr16 : r / 16 < 16 := by omega
        have h3 := hexCharOf_spec ⟨r / 16, hr16⟩
        simp only [encode_hex, nextCharBoundary, Bool.or_eq_true, decide_eq_true_eq]
        exact Or.inl h3.1
    have hpair := u8FromRadix16_pair (b / 16) (b % 16) hhi hlo
    have hval : b / 16 * 16 + b % 16 = b := by omega
    show decode_hex (hexCharOf (b / 16) :: hexCharOf (b % 16) :: encode_hex rest) =
      RResult.ok (b :: rest)
    rw [hval] at hpair
    simp [decode_hex, hbound, hpair, ih hrest]

theorem decode_encode_roundtrip_witness :
    (∀ b ∈ [0, 171, 255], b < 256) ∧
    decode_hex (encode_hex [0, 171, 255]) = RResult.ok [0, 171, 255] :=
  ⟨by decide, decode_encode_roundtrip [0, 171, 255] (by decide)⟩

/-- C7: whenever the capacity extracted from the `AT+I` reply is below
`Sha3_512::output_size() + 8 + 2 = 74`, `main` exits with the
capacity-insufficient error and no `AT+S`/`AT+V` payload is ever written
to the device. -/
theorem capacity_gate_blocks_payload (reply : List Nat) (m : Nat)
    (h1 : extractCapacity reply = some m) (h2 : m < 64 + 8 + 2) :
    phaseAfterInfo reply = CapPhase.insufficient ∧
    ∀ payload : List Nat, payloadCmdsSent reply payload = [] := by
  have hphase : phaseAfterInfo reply = CapPhase.insufficient := by
    simp [phaseAfterInfo, h1, h2]
  exact ⟨hphase, fun payload => by simp [payloadCmdsSent, hphase]⟩

theorem capacity_gate_blocks_payload_witness :
    extractCapacity [109, 97, 120, 32, 56] = some 8 ∧ 8 < 64 + 8 + 2 ∧
    phaseAfterInfo [109, 97, 120, 32, 56] = CapPhase.insufficient ∧
    payloadCmdsSent [109, 97, 120, 32, 56] [65] = [] := by
  have h := capacity_gate_blocks_payload [109, 97, 120, 32, 56] 8 (by decide) (by decide)
  exact ⟨by decide, by decide, h.1, h.2 [65]⟩

theorem utf8Lossy_ne_nil (b : Nat) (rest : List Nat) : utf8Lossy (b :: rest) ≠ [] := by
  unfold utf8Lossy
  repeat' split
  all_goals simp

theorem utf8Scalars_ne_nil (b : Nat) (rest : List Nat) : utf8Scalars (b :: rest) ≠ [] := by
  unfold utf8Scalars
  repeat' split
  all_goals simp

theorem scalars_of_bytes_eq_nil_iff (s : List Nat) :
    utf8Scalars (utf8Lossy s) = [] ↔ s = [] := by
  constructor
  · intro h
    cases s with
    | nil => rfl
    | cons b rest =>
      exfalso
      cases hx : utf8Lossy (b :: rest) with
      | nil => exact utf8Lossy_ne_nil b rest hx
      | cons c l =>
        rw [hx] at h
        exact utf8Scalars_ne_nil c l h
  · intro h
    subst h
    rfl

theorem splitInclLF_ne_nil (b : Nat) (rest : List Nat) : splitInclLF (b :: rest) ≠ [] := by
  unfold splitInclLF
  repeat' split
  all_goals simp

theorem linesOf_eq_nil_iff (s : List Nat) : linesOf s = [] ↔ s = [] := by
  constructor
  · intro h
    cases s with
    | nil => rfl
    | cons b rest =>
      exfalso
      rw [linesOf, List.map_eq_nil_iff] at h
      exact splitInclLF_ne_nil b rest h
  · intro h
    subst h
    rfl

/-- C10: the capacity extraction after a successful `AT+I` exchange
(`.lines().last().unwrap().split_whitespace().last().unwrap()
.parse::<usize>().unwrap()`) completes exactly when the reply buffer is
non-empty and the last whitespace-delimited token of its last line parses
as an unsigned decimal integer fitting in `usize`; on every other reply
(empty buffer, a last line without tokens, a non-numeric or overflowing
last token) one of the `unwrap`s panics, so the program aborts instead of
failing with a reported error. -/
theorem extract_capacity_total_iff (reply : List Nat) :
    (extractCapacity reply).isSome ↔
      reply ≠ [] ∧
        ∃ tok v, lastTokenOfLastLine reply = some tok ∧ parseUsize tok = some v := by
  cases hl : (linesOf (utf8Scalars (utf8Lossy reply))).getLast? with
  | none =>
    have hlines : linesOf (utf8Scalars (utf8Lossy reply)) = [] := by
      cases hx : linesOf (utf8Scalars (utf8Lossy reply)) with
      | nil => rfl
      | cons a as =>
        rw [hx] at hl
        simp [List.getLast?_concat, List.getLast?] at hl
    have hscal : utf8Scalars (utf8Lossy reply) = [] := (linesOf_eq_nil_iff _).mp hlines
    have hrep : reply = [] := (scalars_of_bytes_eq_nil_iff _).mp hscal
    subst hrep
    simp [extractCapacity, hl]
  | some lastLine =>
    have hne : reply ≠ [] := by
      intro h
      subst h
      simp [linesOf, splitInclLF, utf8Lossy, utf8Scalars] at hl
    simp only [extractCapacity, lastTokenOfLastLine, hl, Option.getD_some, hne, ne_eq,
      not_false_eq_true, true_and]
    cases ht : (splitWhitespaceOf lastLine).getLast? with
    | none => simp
    | some tok =>
      simp [Option.isSome_iff_exists]

/-- C8: in the verify flow, after a non-ERROR reply, a timestamp field
whose hex decode returns an error is handled exactly like a decoded zero
value (`unwrap_or` falls back to eight zero bytes, and zero is rejected as
"Malformed timestamp"); a decoded non-zero value outside chrono's
representable range is rejected as "Invalid timestamp" (or the program
panics earlier on the digest field's own decode `unwrap`); in none of
these cases is success reported. -/
theorem verify_timestamp_error_paths (data : List Nat) (fh : Option (List Nat))
    (hlen : 216 ≤ data.length) :
    (tsDecoded data = RResult.error →
      verifyAfterReply data fh = VerifyOutcome.malformedTimestamp) ∧
    (∀ bs, tsDecoded data = RResult.ok bs → asI64 (leU64OrZero bs) = 0 →
      verifyAfterReply data fh = VerifyOutcome.malformedTimestamp) ∧
    (∀ bs, tsDecoded data = RResult.ok bs → asI64 (leU64OrZero bs) ≠ 0 →
      fromTimestampSome (asI64 (leU64OrZero bs)) = false →
      (verifyAfterReply data fh = VerifyOutcome.invalidTimestamp ∨
        verifyAfterReply data fh = VerifyOutcome.panicked) ∧
      verifyAfterReply data fh ≠ VerifyOutcome.success) := by
  have hslice : vecSlice data NONCE_LEN (NONCE_LEN + 16) =
      some ((data.drop NONCE_LEN).take 16) := by
    have hcond : NONCE_LEN ≤ NONCE_LEN + 16 ∧ NONCE_LEN + 16 ≤ data.length := by
      simp only [NONCE_LEN] at *
      omega
    simp [vecSlice, hcond]
  refine ⟨?_, ?_, ?_⟩
  · intro herr
    unfold tsDecoded at herr
    unfold verifyAfterReply
    rw [hslice]
    simp only [herr]
    unfold verifyWithTs
    rw [if_pos (by decide)]
  · intro bs hok h0
    unfold tsDecoded at hok
    unfold verifyAfterReply
    rw [hslice]
    simp only [hok]
    unfold verifyWithTs
    rw [if_pos h0]
  · intro bs hok hne0 hrange
    unfold tsDecoded at hok
    unfold verifyAfterReply
    rw [hslice]
    simp only [hok]
    unfold verifyWithTs
    rw [if_neg hne0]
    cases hds : vecSlice data (NONCE_LEN + 18) (NONCE_LEN + 18 + 128) with
    | none => exact ⟨Or.inr (by simp [hds]), by simp [hds]⟩
    | some dsBytes =>
      cases hdec : decode_hex (utf8Lossy dsBytes) with
      | ok hash => exact ⟨Or.inl (by simp [hds, hdec, hrange]), by simp [hds, hdec, hrange]⟩
      | error => exact ⟨Or.inr (by simp [hds, hdec]), by simp [hds, hdec]⟩
      | panicked => exact ⟨Or.inr (by simp [hds, hdec]), by simp [hds, hdec]⟩

theorem verify_timestamp_error_paths_witness :
    216 ≤ (List.replicate 216 48 : List Nat).length ∧
    verifyAfterReply (List.replicate 216 48) none = VerifyOutcome.malformedTimestamp :=
  ⟨by decide,
    (verify_timestamp_error_paths (List.replicate 216 48) none (by decide)).2.1
      (List.replicate 8 0) (by decide) (by decide)⟩

end TinySign
